import Mathlib

set_option maxRecDepth 16384

/-!
Shallow embedding of the filer repository (src/filer): the sqlite-backed
catalog (db.py), the configuration loader (config.py) and the walker's
batching and settle protocol (walker.py), together with proofs about the
specification's claims.

Times are modelled as rationals (Python time.time() returns a float);
mtimes are integers (the walker always applies int() to stat mtimes).
Fallible operations return Except, with the error string naming the
Python exception the source would raise.
-/

/-- Row of the dirs table (db.py init_schema). -/
structure DirRow where
  id : Nat
  path : String
  parent_id : Option Nat
  first_observed : ℚ
  deleted_before : Option ℚ
deriving DecidableEq

/-- Row of the files table (db.py init_schema); rowid is the implicit
sqlite rowid that update_file_data selects and reuses. -/
structure FileRow where
  rowid : Nat
  hash : String
  path : String
  dir_id : Nat
  mtime : Int
  filesize : Int
  first_observed : ℚ
  deleted_before : Option ℚ
deriving DecidableEq

/-- The catalog state: the dirs, files and visits tables, plus the next
autoincrement id and rowid sqlite would assign.  The visits table has
primary key path and a nullable revisit_time column. -/
structure DB where
  dirs : List DirRow
  files : List FileRow
  visits : List (String × Option ℚ)
  next_dir_id : Nat
  next_file_rowid : Nat
deriving DecidableEq

/-- A catalog with empty tables, as produced by init_schema on a fresh
database (sqlite autoincrement ids start at 1). -/
def db_empty : DB := ⟨[], [], [], 1, 1⟩

/-- os.path.dirname, as implemented by posixpath.dirname: take everything
up to and including the last slash, then strip trailing slashes unless the
head is empty or consists only of slashes. -/
def dirname (p : String) : String :=
  let cs := p.data
  let base := (cs.reverse.takeWhile (fun c => c ≠ '/')).length
  let head := cs.take (cs.length - base)
  if head ≠ [] ∧ head.any (fun c => c ≠ '/') then
    String.mk ((head.reverse.dropWhile (fun c => c = '/')).reverse)
  else
    String.mk head

/-- db.clear_visits: delete from visits. -/
def clear_visits (db : DB) : DB := { db with visits := [] }

/-- db.record_visit: when deleted is set, delete the visits row for path;
otherwise insert or replace the row (path, revisit_time) keyed by the
primary key path. -/
def record_visit (db : DB) (path : String) (revisit_time : Option ℚ)
    (deleted : Bool) : DB :=
  if deleted then
    { db with visits := db.visits.filter (fun v => decide (v.1 ≠ path)) }
  else
    { db with visits :=
        (path, revisit_time) :: db.visits.filter (fun v => decide (v.1 ≠ path)) }

/-- The ordering used by the select in db.due_for_revisit:
order by revisit_time asc. -/
def revisit_le (a b : String × ℚ) : Prop := a.2 ≤ b.2

instance : DecidableRel revisit_le :=
  fun a b => inferInstanceAs (Decidable (a.2 ≤ b.2))

instance : IsTotal (String × ℚ) revisit_le := ⟨fun a b => le_total a.2 b.2⟩

instance : IsTrans (String × ℚ) revisit_le := ⟨fun _ _ _ h1 h2 => le_trans h1 h2⟩

/-- The rows fetched by db.due_for_revisit: select path, revisit_time from
visits where revisit_time is not null order by revisit_time asc limit 1000. -/
def revisit_sample (db : DB) : List (String × ℚ) :=
  ((db.visits.filterMap (fun v => v.2.map (fun t => (v.1, t)))).insertionSort
    revisit_le).take 1000

/-- db.due_for_revisit: split the sampled rows into due (revisit_time now
or earlier) and not yet due; return the due paths together with the
minimum not-yet-due time (Python min over a non-empty list, None when the
list is empty), or the first sampled time with no paths when nothing is
due, or (None, empty) when nothing was sampled. -/
def due_for_revisit (db : DB) (now : ℚ) : Option ℚ × List String :=
  match revisit_sample db with
  | [] => (none, [])
  | item0 :: more =>
    let items := item0 :: more
    let due := (items.filter (fun v => decide (v.2 ≤ now))).map Prod.fst
    let not_due_times := (items.filter (fun v => decide (now < v.2))).map Prod.snd
    if due ≠ [] then (not_due_times.min?, due) else (some item0.2, [])

/-- db.get_current_file_data: select hash, path, mtime from files where
path in (...) and deleted_before is null.  The placeholder list is built
with a join over the given paths; for the empty list the statement reads
path in (), which sqlite accepts as an always-false condition (the sqlite
expression documentation explicitly allows an empty IN list), so the call
returns normally with no rows. -/
def get_current_file_data (db : DB) (paths : List String) :
    List (String × String × Int) :=
  (db.files.filter
    (fun r => decide (r.path ∈ paths ∧ r.deleted_before = none))).map
    (fun r => (r.hash, r.path, r.mtime))

/-- The select in db._update_dir_data: select from dirs where path = ? and
deleted_before is null. -/
def select_current_dirs (db : DB) (path : String) : List DirRow :=
  db.dirs.filter (fun r => decide (r.path = path ∧ r.deleted_before = none))

/-- The select in db.update_file_data: select from files where path = ? and
deleted_before is null. -/
def select_current_files (db : DB) (path : String) : List FileRow :=
  db.files.filter (fun r => decide (r.path = path ∧ r.deleted_before = none))

/-- The insert in db._update_dir_data: insert into dirs (path, parent_id,
first_observed) values (?, ?, ?); returns the updated state and
cursor.lastrowid. -/
def insert_dir (db : DB) (path : String) (parent : Option Nat) (now : ℚ) :
    DB × Nat :=
  ({ db with
      dirs := db.dirs ++ [⟨db.next_dir_id, path, parent, now, none⟩],
      next_dir_id := db.next_dir_id + 1 },
   db.next_dir_id)

/-- db._update_dir_data: ensure a current dirs row for path exists and
return its id, recursing on os.path.dirname for the parent unless path is
the root (path equal to the slash string or empty).  The recursion in the
source is unbounded (Python bounds it only by its interpreter recursion
limit), so the embedding takes a fuel argument; exhausted fuel is the
RecursionError the source would raise on a dirname fixpoint such as a
path of two slashes.  The assert len(rows) == 1 of the source is the
two-or-more-rows failure case. -/
def update_dir_data : Nat → DB → String → ℚ → Option (DB × Nat)
  | 0, _, _, _ => none
  | fuel + 1, db, path, now =>
    match select_current_dirs db path with
    | [r] => some (db, r.id)
    | _ :: _ :: _ => none
    | [] =>
      if path = "/" ∨ path = "" then
        some (insert_dir db path none now)
      else
        match update_dir_data fuel db (dirname path) now with
        | none => none
        | some (db1, parent) => some (insert_dir db1 path (some parent) now)

/-- db.update_file_data: look up the current files row for path.  If one
exists, ensure the directory row and return without a write when hash,
mtime and dir id are unchanged; otherwise the source executes
"replace into files (rowid, hash, filesize, path, mtime, first_observed,
dir_id) values(?, ?, ?, ?, ?, ?)" - seven column names but only six
placeholders - which sqlite rejects at prepare time, so the branch raises
sqlite3.OperationalError instead of writing.  If no current row exists,
insert a new row with first_observed = now.  The assert len(rows) == 1
of the source is the AssertionError case. -/
def update_file_data (fuel : Nat) (db : DB) (new_hash : String)
    (filesize : Int) (path : String) (mtime : Int) (now : ℚ) :
    Except String DB :=
  match select_current_files db path with
  | [r] =>
    match update_dir_data fuel db (dirname path) now with
    | none => .error "RecursionError"
    | some (db1, dir_id) =>
      if r.hash = new_hash ∧ r.mtime = mtime ∧ dir_id = r.dir_id then
        .ok db1
      else
        .error "sqlite3.OperationalError: 6 values for 7 columns"
  | _ :: _ :: _ => .error "AssertionError"
  | [] =>
    match update_dir_data fuel db (dirname path) now with
    | none => .error "RecursionError"
    | some (db1, dir_id) =>
      .ok { db1 with
              files := db1.files ++
                [⟨db1.next_file_rowid, new_hash, path, dir_id, mtime,
                  filesize, now, none⟩],
              next_file_rowid := db1.next_file_rowid + 1 }

/-- db.update_deleted_file_data: update files set deleted_before = ? where
path = ? and deleted_before is null. -/
def update_deleted_file_data (db : DB) (path : String) (now : ℚ) : DB :=
  { db with files := db.files.map (fun r =>
      if r.path = path ∧ r.deleted_before = none then
        { r with deleted_before := some now }
      else r) }

/-- config.py line 65: settle_time = max(float(times.pop("settle", 30.0)),
0.0), with the JSON numeric value represented as a rational. -/
def load_settle_time (settle : Option ℚ) : ℚ := max (settle.getD 30) 0

/-- Walker.batch_size, set in Walker.__init__. -/
def batch_size : Nat := 1000

/-- Python dict assignment d[path] = mtime: replace in place when the key
is present (dicts preserve insertion order), append otherwise. -/
def dict_set (b : List (String × Int)) (path : String) (mtime : Int) :
    List (String × Int) :=
  if path ∈ b.map Prod.fst then
    b.map (fun e => if e.1 = path then (path, mtime) else e)
  else
    b ++ [(path, mtime)]

/-- Walker.add_to_file_batch: store the mtime under the path, then flush
immediately when len(batch) > batch_size.  The boolean records whether
process_file_batch was awaited during the add. -/
def add_to_file_batch (b : List (String × Int)) (path : String)
    (mtime : Int) : List (String × Int) × Bool :=
  let b1 := dict_set b path mtime
  (b1, decide (b1.length > batch_size))

/-- Walker.add_to_symlink_batch: same structure as the file batch. -/
def add_to_symlink_batch (b : List (String × Int)) (path : String)
    (mtime : Int) : List (String × Int) × Bool :=
  let b1 := dict_set b path mtime
  (b1, decide (b1.length > batch_size))

/-- Walker.add_to_delete_batch: the delete batch maps each path to None,
so it is a set of paths; flush immediately when len(batch) > batch_size. -/
def add_to_delete_batch (b : List String) (path : String) :
    List String × Bool :=
  let b1 := if path ∈ b then b else b ++ [path]
  (b1, decide (b1.length > batch_size))

/-- Outcome of one (path, mtime) item of the per-item loop of
Walker.visit_files. -/
inductive FileVisitOutcome where
  /-- db.record_visit(conn, path): a visit with no revisit time. -/
  | visit_no_revisit : FileVisitOutcome
  /-- db.record_visit(conn, path, t) and revisits_queued set. -/
  | revisit (t : ℚ) : FileVisitOutcome
  /-- The path is added to the deletion set. -/
  | add_to_deletes : FileVisitOutcome
  /-- The all-checks-passed branch, walker.py line 154: the source calls
  db.update_file_data(self.db_conn, new_hash, path, mtime, now), five
  arguments for the six parameters (connection, new_hash, filesize, path,
  mtime, now) of db.update_file_data, so Python raises TypeError before
  any catalog write and before the following record_visit. -/
  | update_call_type_error (new_hash : String) : FileVisitOutcome
deriving DecidableEq

/-- The settle protocol of Walker.visit_files for a single batch item
(path, mtime) with mtime not None: stored is the (hash, mtime) pair from
get_current_file_data for the path, now the freshly sampled time, pre_stat
and post_stat the two re-stats around hashing (none encodes
FileNotFoundError), hash_result the outcome of calc_hash (none encodes
PermissionError). -/
def visit_file_item (stored : Option (String × Int)) (settle_time : ℚ)
    (mtime : Int) (now : ℚ) (pre_stat : Option Int)
    (hash_result : Option String) (post_stat : Option Int) :
    FileVisitOutcome :=
  match stored with
  | some (_, stored_mtime) =>
    if stored_mtime = mtime then .visit_no_revisit
    else visit_file_item_unstored settle_time mtime now pre_stat hash_result
      post_stat
  | none =>
    visit_file_item_unstored settle_time mtime now pre_stat hash_result
      post_stat
where
  /-- The part of the loop body after the stored-mtime comparison
  (walker.py lines 104 to 155). -/
  visit_file_item_unstored (settle_time : ℚ) (mtime : Int) (now : ℚ)
      (pre_stat : Option Int) (hash_result : Option String)
      (post_stat : Option Int) : FileVisitOutcome :=
    let settled_time := (mtime : ℚ) + settle_time
    if now < settled_time then .revisit settled_time
    else
      match pre_stat with
      | none => .add_to_deletes
      | some new_mtime =>
        if new_mtime ≠ mtime then .revisit ((new_mtime : ℚ) + settle_time)
        else
          match hash_result with
          | none => .add_to_deletes
          | some new_hash =>
            match post_stat with
            | none => .add_to_deletes
            | some new_mtime2 =>
              if new_mtime2 ≠ mtime then
                .revisit ((new_mtime2 : ℚ) + settle_time)
              else .update_call_type_error new_hash

/-- The per-path body of the deletion loop at the end of
Walker.visit_files (lines 157 to 173): a final stat is taken (none encodes
FileNotFoundError, some m an existing file of mtime m).  The source tests
the result with "if new_mtime:", Python truthiness, so both None and an
mtime of exactly 0 take the deleted branch: record_visit with deleted set,
then update_deleted_file_data.  A non-zero mtime records a revisit at
new_mtime + settle_time; the boolean is the revisits_queued contribution. -/
def process_delete_path (db : DB) (settle_time : ℚ) (path : String)
    (stat_mtime : Option Int) (now : ℚ) : DB × Bool :=
  match stat_mtime with
  | some new_mtime =>
    if new_mtime ≠ 0 then
      (record_visit db path (some ((new_mtime : ℚ) + settle_time)) false, true)
    else
      (update_deleted_file_data (record_visit db path none true) path now,
       false)
  | none =>
    (update_deleted_file_data (record_visit db path none true) path now,
     false)

/-- A catalog holding one current observation, used as a concrete input. -/
def db_c8 : DB :=
  ⟨[⟨1, "/", none, 10, none⟩], [⟨1, "h", "/f", 1, 3, 7, 10, none⟩], [], 2, 2⟩

/-- A catalog whose only visit record has a null revisit time. -/
def db_c10w : DB := ⟨[], [], [("/a", none)], 1, 1⟩

/-- A catalog with a current observation and a pending revisit for /a. -/
def db_c5 : DB :=
  ⟨[⟨1, "/", none, 10, none⟩], [⟨1, "h", "/a", 1, 0, 7, 10, none⟩],
   [("/a", some 99)], 2, 2⟩

/-- A catalog with one current observation for /b. -/
def db_c5w : DB := ⟨[], [⟨1, "h", "/b", 1, 5, 7, 10, none⟩], [], 2, 2⟩

/-- A catalog with a current observation for /a/x (hash h1, mtime 1) and
its directory chain, as update_file_data would have created it. -/
def db_c3 : DB :=
  ⟨[⟨1, "/", none, 10, none⟩, ⟨2, "/a", some 1, 10, none⟩],
   [⟨1, "h1", "/a/x", 2, 1, 5, 10, none⟩], [], 3, 2⟩

/-- Pairwise-distinct paths used to build large concrete batches. -/
def rep_path (i : Nat) : String := String.mk (List.replicate i 'a')

/-- A pending file batch of 999 distinct paths. -/
def batch999 : List (String × Int) :=
  (List.range 999).map (fun i => (rep_path i, 0))

/-- A pending file batch of 1000 distinct paths. -/
def batch1000 : List (String × Int) :=
  (List.range 1000).map (fun i => (rep_path i, 0))

/-- C7: the loaded settle-time is the configured value clamped to be
non-negative, is 30 when the key is absent, and is never negative. -/
theorem c7_settle_time_clamped :
    load_settle_time none = 30 ∧
    (∀ q : ℚ, load_settle_time (some q) = max q 0) ∧
    ∀ o : Option ℚ, 0 ≤ load_settle_time o := by
  refine ⟨?_, fun q => rfl, fun o => le_max_right _ _⟩
  simp [load_settle_time]

/-- C8 counterexample: on a catalog holding a current row, the call with
an empty path list returns the empty result normally (the claim states it
raises an error instead of returning). -/
theorem c8_counterexample : get_current_file_data db_c8 [] = [] := by decide

/-- C8 (amended): with an empty path list the generated statement reads
path in (), which sqlite accepts as an always-false condition, so the call
returns the empty list normally. -/
theorem c8_empty_in_clause (db : DB) : get_current_file_data db [] = [] := by
  simp [get_current_file_data]

/-- C10: when no visit record has a non-null revisit time, due_for_revisit
returns (null, empty), even on a non-empty visits table. -/
theorem c10_all_null_revisits (db : DB) (now : ℚ)
    (h : ∀ v ∈ db.visits, v.2 = none) :
    due_for_revisit db now = (none, []) := by
  have hnil : db.visits.filterMap (fun v => v.2.map (fun t => (v.1, t))) = [] := by
    rw [List.filterMap_eq_nil_iff]
    intro v hv
    rw [h v hv]
    rfl
  have hs : revisit_sample db = [] := by
    unfold revisit_sample
    rw [hnil]
    rfl
  unfold due_for_revisit
  rw [hs]

/-- Witness for C10 at a non-empty visits table. -/
theorem c10_witness :
    (∀ v ∈ db_c10w.visits, v.2 = none) ∧
    due_for_revisit db_c10w 5 = (none, []) :=
  ⟨by decide, c10_all_null_revisits db_c10w 5 (by decide)⟩

/-- C9: a plain record_visit with null revisit time replaces the visit
record for the path wholesale, so after it the path has exactly one
record, carrying no revisit time; and every record_visit call preserves
the at-most-one-record-per-path invariant of the primary key. -/
theorem c9_record_visit_replaces (db : DB) (path : String) (rt : Option ℚ)
    (deleted : Bool) (h : (db.visits.map Prod.fst).Nodup) :
    (record_visit db path none false).visits.filter
        (fun v => decide (v.1 = path)) = [(path, none)] ∧
    ((record_visit db path rt deleted).visits.map Prod.fst).Nodup := by
  constructor
  · simp only [record_visit, if_neg (by simp : ¬ (false = true))]
    rw [List.filter_cons]
    simp only [decide_eq_true_eq]
    rw [if_pos trivial, List.filter_filter]
    have : ∀ v : String × Option ℚ,
        (decide (v.1 = path) && decide (v.1 ≠ path)) = false := by
      intro v
      by_cases hv : v.1 = path <;> simp [hv]
    rw [List.filter_congr (fun v _ => this v), List.filter_false]
  · have hsub : ∀ p : String × Option ℚ → Bool,
        ((db.visits.filter p).map Prod.fst).Nodup := by
      intro p
      exact h.sublist ((db.visits.filter_sublist).map Prod.fst)
    cases deleted with
    | true =>
      simp only [record_visit, if_pos rfl]
      exact hsub _
    | false =>
      simp only [record_visit, if_neg (by simp : ¬ (false = true)),
        List.map_cons]
      refine List.nodup_cons.mpr ⟨?_, hsub _⟩
      intro hmem
      rcases List.mem_map.mp hmem with ⟨v, hv, hfst⟩
      rcases List.mem_filter.mp hv with ⟨-, hne⟩
      exact (decide_eq_true_eq.mp hne) hfst

/-- Witness for C9: a pending revisit for /w is cleared by a plain visit. -/
theorem c9_witness :
    (record_visit (DB.mk [] [] [("/w", some 4), ("/u", none)] 1 1) "/w" none
        false).visits.filter (fun v => decide (v.1 = "/w")) = [("/w", none)] ∧
    ((record_visit (DB.mk [] [] [("/w", some 4), ("/u", none)] 1 1) "/w" none
        false).visits.map Prod.fst).Nodup :=
  c9_record_visit_replaces (DB.mk [] [] [("/w", some 4), ("/u", none)] 1 1)
    "/w" none false (by decide)

/-- C5 counterexample: a candidate deletion path whose final stat shows an
existing file with mtime 0 does not get the claimed revisit at
new_mtime plus settle-time; the code takes the deleted branch instead,
removing the visit record and leaving revisits-queued unsignalled. -/
theorem c5_counterexample :
    ("/a", some ((0 : ℚ) + 30)) ∉
        (process_delete_path db_c5 30 "/a" (some 0) 50).1.visits ∧
    (process_delete_path db_c5 30 "/a" (some 0) 50).2 = false := by decide

/-- C5 (amended): for each candidate deletion path a final stat is taken;
if it yields a non-zero mtime, a visit with revisit-time
new_mtime + settle-time is recorded and revisits-queued is signalled; if
the file is missing or the stat yields mtime exactly 0 (Python truthiness
of the mtime), the visit record is removed and every current observation
row for the path gets deleted-before set to now. -/
theorem c5_amended (db : DB) (settle : ℚ) (path : String)
    (stat : Option Int) (now : ℚ) :
    (∀ nm : Int, stat = some nm → nm ≠ 0 →
      (process_delete_path db settle path stat now).2 = true ∧
      (path, some ((nm : ℚ) + settle)) ∈
        (process_delete_path db settle path stat now).1.visits ∧
      (process_delete_path db settle path stat now).1.files = db.files) ∧
    ((stat = none ∨ stat = some 0) →
      (process_delete_path db settle path stat now).2 = false ∧
      (∀ v ∈ (process_delete_path db settle path stat now).1.visits,
        v.1 ≠ path) ∧
      (∀ r ∈ db.files, r.path = path → r.deleted_before = none →
        { r with deleted_before := some now } ∈
          (process_delete_path db settle path stat now).1.files)) := by
  constructor
  · intro nm he hnz
    subst he
    refine ⟨by simp [process_delete_path, hnz], ?_, by
      simp [process_delete_path, hnz, record_visit]⟩
    simp [process_delete_path, hnz, record_visit]
  · intro hcase
    have hdel : process_delete_path db settle path stat now =
        (update_deleted_file_data (record_visit db path none true) path now,
         false) := by
      rcases hcase with h0 | h0 <;> subst h0 <;> simp [process_delete_path]
    refine ⟨by rw [hdel], ?_, ?_⟩
    · intro v hv
      rw [hdel] at hv
      have hv2 : v ∈ (record_visit db path none true).visits := hv
      simp only [record_visit, if_pos rfl] at hv2
      rcases List.mem_filter.mp hv2 with ⟨-, hne⟩
      exact decide_eq_true_eq.mp hne
    · intro r hr hpath hcur
      rw [hdel]
      have hfiles : (record_visit db path none true).files = db.files := by
        simp [record_visit]
      simp only [update_deleted_file_data, hfiles]
      refine List.mem_map.mpr ⟨r, hr, ?_⟩
      rw [if_pos ⟨hpath, hcur⟩]

/-- Witness for C5 (amended): both stat outcomes at concrete inputs. -/
theorem c5_amended_witness :
    (process_delete_path db_c5w 30 "/b" (some 7) 50).2 = true ∧
    FileRow.mk 1 "h" "/b" 1 5 7 10 (some 60) ∈
      (process_delete_path db_c5w 30 "/b" (some 0) 60).1.files :=
  ⟨((c5_amended db_c5w 30 "/b" (some 7) 50).1 7 rfl (by decide)).1,
   ((c5_amended db_c5w 30 "/b" (some 0) 60).2 (Or.inr rfl)).2.2
     (FileRow.mk 1 "h" "/b" 1 5 7 10 none) (by decide) rfl rfl⟩

/-- C6 counterexample: ingesting a new path into a pending file batch of
999 distinct entries brings it to exactly batch-size (1000) entries, yet
no flush is triggered (the code flushes only when the length exceeds
batch-size). -/
theorem rep_path_inj : Function.Injective rep_path := by
  intro i j h
  have h2 : List.replicate i 'a' = List.replicate j 'a' :=
    congrArg String.data h
  simpa using congrArg List.length h2

theorem tilde_not_mem_rep_range (n : Nat) :
    "~~" ∉ ((List.range n).map (fun i => (rep_path i, (0 : Int)))).map
      Prod.fst := by
  intro h
  rw [List.map_map] at h
  rcases List.mem_map.mp h with ⟨i, -, hi⟩
  have h2 : List.replicate i 'a' = ['~', '~'] := congrArg String.data hi
  have h3 : ('~' : Char) ∈ List.replicate i 'a' := by
    rw [h2]
    exact List.mem_cons_self _ _
  exact absurd (List.eq_of_mem_replicate h3) (by decide)

theorem dict_set_fresh (b : List (String × Int)) (p : String) (m : Int)
    (hp : p ∉ b.map Prod.fst) : dict_set b p m = b ++ [(p, m)] := by
  simp [dict_set, hp]

/-- C6 counterexample: ingesting a new path into a pending file batch of
999 distinct entries brings it to exactly batch-size (1000) entries, yet
no flush is triggered (the code flushes only when the length exceeds
batch-size). -/
theorem c6_counterexample :
    (batch999.map Prod.fst).Nodup ∧
    (add_to_file_batch batch999 "~~" 5).1.length = batch_size ∧
    (add_to_file_batch batch999 "~~" 5).2 = false := by
  have hmem : "~~" ∉ batch999.map Prod.fst := tilde_not_mem_rep_range 999
  have hset := dict_set_fresh batch999 "~~" 5 hmem
  have hlen : batch999.length = 999 := by simp [batch999]
  refine ⟨?_, ?_, ?_⟩
  · rw [batch999, List.map_map]
    exact List.Nodup.map (fun a b hab => rep_path_inj hab)
      (List.nodup_range 999)
  · simp [add_to_file_batch, hset, hlen, batch_size]
  · simp [add_to_file_batch, hset, hlen, batch_size]

/-- C6 (amended): for each of the three batch kinds, ingesting an
observation for a path not already pending grows the batch by one entry
and triggers an immediate flush exactly when the new size exceeds
batch-size (1000); reaching exactly batch-size does not flush until the
timer fires. -/
theorem c6_amended (b : List (String × Int)) (bd : List String)
    (path : String) (mtime : Int) (hf : path ∉ b.map Prod.fst)
    (hd : path ∉ bd) :
    ((add_to_file_batch b path mtime).1.length = b.length + 1 ∧
     (add_to_file_batch b path mtime).2 =
       decide (b.length + 1 > batch_size)) ∧
    ((add_to_symlink_batch b path mtime).1.length = b.length + 1 ∧
     (add_to_symlink_batch b path mtime).2 =
       decide (b.length + 1 > batch_size)) ∧
    ((add_to_delete_batch bd path).1.length = bd.length + 1 ∧
     (add_to_delete_batch bd path).2 =
       decide (bd.length + 1 > batch_size)) := by
  simp [add_to_file_batch, add_to_symlink_batch, add_to_delete_batch,
    dict_set, hf, hd]

/-- Witness for C6 (amended): the add that brings the file batch to 1001
entries does trigger an immediate flush. -/
theorem c6_amended_witness :
    "~~" ∉ batch1000.map Prod.fst ∧
    (add_to_file_batch batch1000 "~~" 5).2 = true := by
  have hmem : "~~" ∉ batch1000.map Prod.fst := tilde_not_mem_rep_range 1000
  have h := c6_amended batch1000 ["q"] "~~" 5 hmem (by decide)
  refine ⟨hmem, ?_⟩
  rw [h.1.2]
  have hlen : batch1000.length = 1000 := by simp [batch1000]
  rw [hlen]
  decide

/-- C1: every file-batch item that passes all checks of the settle
protocol (an identical mtime was not already stored, the settle window has
elapsed, both re-stats return the batch mtime, and a digest was computed)
reaches walker.py line 154, where db.update_file_data is called with five
arguments for its six parameters, so the worker raises TypeError: no
observation carrying the digest and size is recorded, no visit is
recorded, and the batch never commits. -/
theorem c1_all_checks_passed_raises (d : String) (m : Int) (s now : ℚ)
    (h : (m : ℚ) + s ≤ now) :
    visit_file_item none s m now (some m) (some d) (some m) =
      .update_call_type_error d := by
  simp [visit_file_item, visit_file_item.visit_file_item_unstored,
    not_lt.mpr h]

/-- Witness for C1 at a concrete settled item. -/
theorem c1_witness :
    ((5 : Int) : ℚ) + 0 ≤ 100 ∧
    visit_file_item none 0 5 100 (some 5) (some "d1") (some 5) =
      .update_call_type_error "d1" :=
  ⟨by norm_num, c1_all_checks_passed_raises "d1" 5 0 100 (by norm_num)⟩

theorem revisit_sample_sorted (db : DB) :
    (revisit_sample db).Sorted revisit_le :=
  List.Pairwise.sublist (List.take_sublist _ _)
    (List.sorted_insertionSort revisit_le _)

theorem revisit_sample_length_le (db : DB) :
    (revisit_sample db).length ≤ 1000 :=
  List.length_take_le _ _

theorem revisit_sample_mem (db : DB) :
    ∀ x ∈ revisit_sample db, (x.1, some x.2) ∈ db.visits := by
  intro x hx
  unfold revisit_sample at hx
  have hx2 := List.mem_of_mem_take hx
  have hx3 := ((List.perm_insertionSort revisit_le _).mem_iff).mp hx2
  rcases List.mem_filterMap.mp hx3 with ⟨v, hv, he⟩
  cases h2 : v.2 with
  | none => rw [h2] at he; exact absurd he (by simp)
  | some t =>
    rw [h2] at he
    have he2 : (v.1, t) = x := by simpa using he
    have h1 : v.1 = x.1 := congrArg Prod.fst he2
    have ht : t = x.2 := congrArg Prod.snd he2
    rw [← h1, ← ht, ← h2]
    exact hv

theorem foldl_min_of_le (a : ℚ) (l : List ℚ) (h : ∀ x ∈ l, a ≤ x) :
    l.foldl min a = a := by
  induction l with
  | nil => rfl
  | cons x xs ih =>
    have hax : min a x = a := min_eq_left (h x (List.mem_cons_self _ _))
    simp only [List.foldl_cons, hax]
    exact ih (fun y hy => h y (List.mem_cons_of_mem _ hy))

/-- C4: due_for_revisit(now) returns exactly the sampled paths with
revisit-time at most now (hence at most 1000 of them, each with a recorded
revisit-time at most now, in ascending revisit-time order), paired with
the minimum sampled revisit-time exceeding now (null when none exceeds
now); an empty visits table yields (null, empty). -/
theorem c4_due_for_revisit (db : DB) (now : ℚ) :
    (due_for_revisit db now).2 =
      ((revisit_sample db).filter (fun v => decide (v.2 ≤ now))).map
        Prod.fst ∧
    (due_for_revisit db now).2.length ≤ 1000 ∧
    (∀ p ∈ (due_for_revisit db now).2,
      ∃ t, (p, some t) ∈ db.visits ∧ t ≤ now) ∧
    (((revisit_sample db).filter (fun v => decide (v.2 ≤ now))).map
      Prod.snd).Sorted (· ≤ ·) ∧
    (due_for_revisit db now).1 =
      (((revisit_sample db).filter (fun v => decide (now < v.2))).map
        Prod.snd).min? ∧
    (db.visits = [] → due_for_revisit db now = (none, [])) := by
  have hsorted : (((revisit_sample db).filter
      (fun v => decide (v.2 ≤ now))).map Prod.snd).Sorted (· ≤ ·) := by
    rw [List.Sorted, List.pairwise_map]
    exact List.Pairwise.filter _ (revisit_sample_sorted db)
  have hsnd : (due_for_revisit db now).2 =
      ((revisit_sample db).filter (fun v => decide (v.2 ≤ now))).map
        Prod.fst ∧
      (due_for_revisit db now).1 =
      (((revisit_sample db).filter (fun v => decide (now < v.2))).map
        Prod.snd).min? := by
    cases hs : revisit_sample db with
    | nil => simp [due_for_revisit, hs]
    | cons item0 more =>
      simp only [due_for_revisit, hs]
      by_cases hdue : ((item0 :: more).filter
          (fun v => decide (v.2 ≤ now))).map Prod.fst = []
      · have hfilt : (item0 :: more).filter
            (fun v => decide (v.2 ≤ now)) = [] :=
          List.map_eq_nil_iff.mp hdue
        have hall : ∀ v ∈ item0 :: more, ¬ (v.2 ≤ now) := by
          intro v hv
          have := (List.filter_eq_nil_iff.mp hfilt) v hv
          simpa using this
        have hfull : (item0 :: more).filter
            (fun v => decide (now < v.2)) = item0 :: more := by
          rw [List.filter_eq_self]
          intro v hv
          simpa using lt_of_not_ge (hall v hv)
        have hmin : (((item0 :: more).filter
            (fun v => decide (now < v.2))).map Prod.snd).min? =
            some item0.2 := by
          rw [hfull, List.map_cons]
          show some ((more.map Prod.snd).foldl min item0.2) = some item0.2
          have hthis := revisit_sample_sorted db
          rw [hs] at hthis
          have hle : ∀ y ∈ more.map Prod.snd, item0.2 ≤ y := by
            intro y hy
            rcases List.mem_map.mp hy with ⟨x, hx, rfl⟩
            exact (List.pairwise_cons.mp hthis).1 x hx
          rw [foldl_min_of_le _ _ hle]
        rw [if_neg (not_not_intro hdue)]
        exact ⟨hdue.symm, hmin.symm⟩
      · rw [if_pos hdue]
        exact ⟨rfl, rfl⟩
  refine ⟨hsnd.1, ?_, ?_, hsorted, hsnd.2, ?_⟩
  · rw [hsnd.1, List.length_map]
    exact le_trans (List.length_filter_le _ _) (revisit_sample_length_le db)
  · intro p hp
    rw [hsnd.1] at hp
    rcases List.mem_map.mp hp with ⟨x, hxf, rfl⟩
    rcases List.mem_filter.mp hxf with ⟨hxs, hxle⟩
    exact ⟨x.2, revisit_sample_mem db x hxs, by simpa using hxle⟩
  · intro hv
    have hnil : revisit_sample db = [] := by
      unfold revisit_sample
      rw [hv]
      rfl
    simp [due_for_revisit, hnil]

/-- Witness for C4 at the empty catalog. -/
theorem c4_witness : due_for_revisit db_empty 7 = (none, []) :=
  (c4_due_for_revisit db_empty 7).2.2.2.2.2 rfl

theorem dirname_data_sublist (p : String) :
    List.Sublist (dirname p).data p.data := by
  simp only [dirname]
  set k := p.data.length -
    (List.takeWhile (fun c => decide (c ≠ '/')) p.data.reverse).length with hk
  split
  · show List.Sublist
      ((List.dropWhile (fun c => decide (c = '/'))
        (List.take k p.data).reverse).reverse) p.data
    refine List.Sublist.trans ?_ (List.take_sublist k p.data)
    have h1 : List.IsSuffix
        (List.dropWhile (fun c => decide (c = '/')) (List.take k p.data).reverse)
        ((List.take k p.data).reverse) := List.dropWhile_suffix _
    have h2 := h1.sublist.reverse
    rwa [List.reverse_reverse] at h2
  · show List.Sublist (List.take k p.data) p.data
    exact List.take_sublist k p.data

theorem dirname_length_le (p : String) : (dirname p).length ≤ p.length :=
  (dirname_data_sublist p).length_le

theorem dirname_eq_self_of_length (p : String)
    (h : p.length ≤ (dirname p).length) : dirname p = p := by
  have hd : (dirname p).data = p.data :=
    (dirname_data_sublist p).eq_of_length
      (le_antisymm (dirname_data_sublist p).length_le h)
  have := congrArg String.mk hd
  exact this

theorem update_dir_data_dirs (fuel : Nat) :
    ∀ db path now db' i, update_dir_data fuel db path now = some (db', i) →
      ∀ r ∈ db'.dirs, r ∈ db.dirs ∨ r.path.length ≤ path.length := by
  induction fuel with
  | zero =>
    intro db path now db' i h
    exact absurd h (by simp [update_dir_data])
  | succ fuel ih =>
    intro db path now db' i h
    simp only [update_dir_data] at h
    split at h
    · rename_i r heq
      cases h
      intro r hr
      exact Or.inl hr
    · exact absurd h (by simp)
    · rename_i heq
      split at h
      · rename_i hroot
        cases h
        intro r hr
        rcases List.mem_append.mp hr with hl | hl
        · exact Or.inl hl
        · rcases List.mem_singleton.mp hl with rfl
          exact Or.inr le_rfl
      · rename_i hroot
        split at h
        · exact absurd h (by simp)
        · rename_i db1 parent heq2
          cases h
          intro r hr
          rcases List.mem_append.mp hr with hl | hl
          · rcases ih db (dirname path) now db1 parent heq2 r hl with h3 | h3
            · exact Or.inl h3
            · exact Or.inr (le_trans h3 (dirname_length_le path))
          · rcases List.mem_singleton.mp hl with rfl
            exact Or.inr le_rfl

theorem update_dir_data_fixpoint (fuel : Nat) :
    ∀ db path now, dirname path = path → ¬(path = "/" ∨ path = "") →
      select_current_dirs db path = [] →
      update_dir_data fuel db path now = none := by
  induction fuel with
  | zero => intro db path now _ _ _; rfl
  | succ fuel ih =>
    intro db path now hfix hroot hsel
    simp only [update_dir_data, hsel]
    rw [if_neg hroot, hfix, ih db path now hfix hroot hsel]

theorem update_dir_data_untouched (fuel : Nat) :
    ∀ db path now db' i, update_dir_data fuel db path now = some (db', i) →
      db'.files = db.files ∧ db'.visits = db.visits ∧
      db'.next_file_rowid = db.next_file_rowid := by
  induction fuel with
  | zero =>
    intro db path now db' i h
    exact absurd h (by simp [update_dir_data])
  | succ fuel ih =>
    intro db path now db' i h
    simp only [update_dir_data] at h
    split at h
    · cases h
      exact ⟨rfl, rfl, rfl⟩
    · exact absurd h (by simp)
    · split at h
      · cases h
        exact ⟨rfl, rfl, rfl⟩
      · split at h
        · exact absurd h (by simp)
        · rename_i db1 parent heq2
          cases h
          exact ih db (dirname path) now db1 parent heq2

theorem update_dir_data_found (fuel : Nat) (db : DB) (path : String)
    (now : ℚ) (r : DirRow) (h : select_current_dirs db path = [r]) :
    update_dir_data (fuel + 1) db path now = some (db, r.id) := by
  simp only [update_dir_data, h]

theorem update_dir_data_lookup (fuel : Nat) (db : DB) (path : String)
    (now : ℚ) (db' : DB) (i : Nat)
    (h : update_dir_data fuel db path now = some (db', i)) :
    ∃ r : DirRow, select_current_dirs db' path = [r] ∧ r.id = i := by
  cases fuel with
  | zero => exact absurd h (by simp [update_dir_data])
  | succ fuel =>
    simp only [update_dir_data] at h
    split at h
    · rename_i r heq
      cases h
      exact ⟨r, heq, rfl⟩
    · exact absurd h (by simp)
    · rename_i heq
      split at h
      · rename_i hroot
        cases h
        refine ⟨⟨db.next_dir_id, path, none, now, none⟩, ?_, rfl⟩
        simp only [select_current_dirs] at heq ⊢
        rw [List.filter_append, heq]
        simp
      · rename_i hroot
        split at h
        · exact absurd h (by simp)
        · rename_i db1 parent heq2
          cases h
          have hnil : select_current_dirs db1 path = [] := by
            rw [select_current_dirs, List.filter_eq_nil_iff]
            intro r hr hdec
            have hprop := decide_eq_true_eq.mp hdec
            rcases update_dir_data_dirs fuel db (dirname path) now db1
                parent heq2 r hr with hmem | hlen
            · have : r ∈ select_current_dirs db path :=
                List.mem_filter.mpr ⟨hmem, hdec⟩
              rw [heq] at this
              exact absurd this (by simp)
            · rw [hprop.1] at hlen
              have hfix : dirname path = path :=
                dirname_eq_self_of_length path hlen
              have := update_dir_data_fixpoint fuel db (dirname path) now
                (by rw [hfix]; exact hfix) (by rw [hfix]; exact hroot)
                (by rw [hfix]; exact heq)
              rw [this] at heq2
              exact absurd heq2 (by simp)
          refine ⟨⟨db1.next_dir_id, path, some parent, now, none⟩, ?_, rfl⟩
          simp only [select_current_dirs] at hnil ⊢
          rw [List.filter_append, hnil]
          simp

/-- The catalog state after recording hash ha, size 4, path /a/y, mtime 2
at time 1 into the empty catalog. -/
def db_w1 : DB :=
  ⟨[⟨1, "/", none, 1, none⟩, ⟨2, "/a", some 1, 1, none⟩],
   [⟨1, "ha", "/a/y", 2, 2, 4, 1, none⟩], [], 3, 2⟩

/-- C2: recording the same observation (digest, size, path, mtime) twice
leaves the catalog exactly as after the first call alone: if the first
call returns normally with state db1, the second call returns db1
unchanged, because the current row for the path then carries the identical
digest and mtime (and the directory row is already present). -/
theorem c2_record_observation_idempotent (fuel : Nat) (db0 db1 : DB)
    (d : String) (s : Int) (P : String) (m : Int) (t1 t2 : ℚ)
    (hle : t1 ≤ t2)
    (h1 : update_file_data fuel db0 d s P m t1 = .ok db1) :
    update_file_data fuel db1 d s P m t2 = .ok db1 := by
  cases fuel with
  | zero =>
    exfalso
    simp only [update_file_data, update_dir_data] at h1
    split at h1 <;> simp at h1
  | succ fuel =>
    simp only [update_file_data] at h1
    split at h1
    · rename_i r heqf
      split at h1
      · exact absurd h1 (by simp)
      · rename_i dbA i heq2
        split at h1
        · rename_i hcond
          have hdb : dbA = db1 := by injection h1
          have hfiles :=
            (update_dir_data_untouched (fuel + 1) db0 (dirname P) t1 dbA i
              heq2).1
          have hsel1 : select_current_files db1 P = [r] := by
            simp only [select_current_files] at heqf ⊢
            rw [← hdb, hfiles]
            exact heqf
          obtain ⟨rd, hrd, hrdid⟩ :=
            update_dir_data_lookup (fuel + 1) db0 (dirname P) t1 dbA i heq2
          have hrd1 : select_current_dirs db1 (dirname P) = [rd] := by
            rw [← hdb]
            exact hrd
          have hfound := update_dir_data_found fuel db1 (dirname P) t2 rd hrd1
          simp only [update_file_data, hsel1, hfound]
          rw [if_pos ⟨hcond.1, hcond.2.1, hrdid.trans hcond.2.2⟩]
        · exact absurd h1 (by simp)
    · exact absurd h1 (by simp)
    · rename_i heqf
      split at h1
      · exact absurd h1 (by simp)
      · rename_i dbA i heq2
        have hdb : ({ dbA with
            files := dbA.files ++
              [⟨dbA.next_file_rowid, d, P, i, m, s, t1, none⟩],
            next_file_rowid := dbA.next_file_rowid + 1 } : DB) = db1 := by
          injection h1
        have hfilesA :=
          (update_dir_data_untouched (fuel + 1) db0 (dirname P) t1 dbA i
            heq2).1
        have hsel1 : select_current_files db1 P =
            [⟨dbA.next_file_rowid, d, P, i, m, s, t1, none⟩] := by
          rw [← hdb]
          simp only [select_current_files, List.filter_append]
          rw [hfilesA]
          simp only [select_current_files] at heqf
          rw [heqf]
          simp
        obtain ⟨rd, hrd, hrdid⟩ :=
          update_dir_data_lookup (fuel + 1) db0 (dirname P) t1 dbA i heq2
        have hrd1 : select_current_dirs db1 (dirname P) = [rd] := by
          rw [← hdb]
          exact hrd
        have hfound := update_dir_data_found fuel db1 (dirname P) t2 rd hrd1
        simp only [update_file_data, hsel1, hfound]
        rw [if_pos ⟨trivial, trivial, hrdid⟩]

/-- Witness for C2: record (ha, 4, /a/y, 2) at time 1 into the empty
catalog, then again at time 2; the second call returns the same state. -/
theorem c2_witness :
    (1 : ℚ) ≤ 2 ∧
    update_file_data 3 db_empty "ha" 4 "/a/y" 2 1 = .ok db_w1 ∧
    update_file_data 3 db_w1 "ha" 4 "/a/y" 2 2 = .ok db_w1 := by
  have hfirst : update_file_data 3 db_empty "ha" 4 "/a/y" 2 1 = .ok db_w1 :=
    rfl
  exact ⟨by norm_num, hfirst,
    c2_record_observation_idempotent 3 db_empty db_w1 "ha" 4 "/a/y" 2 1 2
      (by norm_num) hfirst⟩

/-- C3: recording an observation for a path that already has a current row
with a different digest or mtime reaches the replace statement of
db.update_file_data, whose SQL names seven columns but supplies six
placeholders; sqlite rejects it, so the call raises OperationalError
instead of replacing the row in place. -/
theorem c3_replace_raises :
    update_file_data 2 db_c3 "h2" 6 "/a/x" 2 20 =
      .error "sqlite3.OperationalError: 6 values for 7 columns" := rfl
